import Mathlib

/-!
Verification of the `helix-fnd` request-gate subsystems against their
natural-language specification.  The Go sources are shallowly embedded:
pure fragments become Lean functions, remote-store interactions become
explicit oracle inputs (the outcome of the network call is a parameter),
and machine integers become `Int`/`Nat`/`Rat`.
-/

namespace HelixFnd

/-! ## G1: GCRA rate limiter — the Lua script `luaGCRA`
    (src/server/middleware/ratelimit.go)

Time is modelled as `ℚ` (the script works on Lua numbers built from the
Redis clock, seconds with microseconds).  The script's effect on the
stored key and its return value are captured in `GCRAResult`:
`ret = -1` admits, `ret ≥ 0` is the retry-after hint; `stored` is the
value under the key after the call, `ttl` the expiry set (seconds),
`none` when the script does not touch the key. -/

structure GCRAResult where
  ret : ℤ
  stored : Option ℚ
  ttl : Option ℤ
  deriving Repr, DecidableEq

/-- Embedding of the Lua script `luaGCRA`: arguments `(rate, period,
burst)`, the Redis clock `now`, and the currently stored `tat`
(`none` when the key is absent). -/
def luaGCRA (rate period burst now : ℚ) (storedTat : Option ℚ) : GCRAResult :=
  let emission_interval := period / rate
  let tat₀ := match storedTat with
    | none => now
    | some t => t
  let tat := max now tat₀
  let new_tat := tat + emission_interval
  let allow_at := new_tat - burst * emission_interval
  if allow_at ≤ now then
    { ret := -1, stored := some new_tat, ttl := some ⌈period * 2⌉ }
  else
    { ret := ⌈allow_at - now⌉, stored := storedTat, ttl := none }

/-- The GCRA recurrence exactly as the specification words it:
`emission_interval = period / rate`, `tat = max(now, stored tat or now)`,
`new_tat = tat + emission_interval`,
`allow_at = new_tat - burst * emission_interval`; admit, store `new_tat`
with TTL `⌈2 * period⌉` and return `-1` iff `allow_at ≤ now`, otherwise
deny, leave the stored value unchanged, and return
`⌈allow_at - now⌉`. -/
def gcraSpecRecurrence (rate period burst now : ℚ) (storedTat : Option ℚ) : GCRAResult :=
  let emissionInterval := period / rate
  let tat := max now (storedTat.getD now)
  let newTat := tat + emissionInterval
  let allowAt := newTat - burst * emissionInterval
  if allowAt ≤ now then
    { ret := -1, stored := some newTat, ttl := some ⌈2 * period⌉ }
  else
    { ret := ⌈allowAt - now⌉, stored := storedTat, ttl := none }

end HelixFnd

namespace HelixFnd

/-- The two branches of the script, with the locals inlined. -/
lemma luaGCRA_eq_branches (rate period burst now : ℚ) (s : Option ℚ) :
    luaGCRA rate period burst now s =
      if max now (s.getD now) + period / rate - burst * (period / rate) ≤ now then
        { ret := -1, stored := some (max now (s.getD now) + period / rate),
          ttl := some ⌈period * 2⌉ }
      else
        { ret := ⌈max now (s.getD now) + period / rate - burst * (period / rate) - now⌉,
          stored := s, ttl := none } := by
  unfold luaGCRA
  cases s <;> rfl

lemma ceil_ne_neg_one_of_pos {x : ℚ} (hx : 0 < x) : ⌈x⌉ ≠ -1 := by
  have := Int.ceil_pos.mpr hx
  omega

/-- C1: for every `Admit` call that reaches the remote counter
(`rate > 0`), the Lua script follows the GCRA recurrence of the
specification: it admits (returns `-1`) and stores `new_tat` with TTL
`⌈2 * period⌉` exactly when `allow_at ≤ now`; otherwise it denies,
leaves the stored `tat` unchanged, and returns `⌈allow_at - now⌉`. -/
theorem gcra_follows_spec_recurrence
    (rate period burst now : ℚ) (storedTat : Option ℚ) (hrate : 0 < rate) :
    luaGCRA rate period burst now storedTat
      = gcraSpecRecurrence rate period burst now storedTat ∧
    ((luaGCRA rate period burst now storedTat).ret = -1 ↔
      max now (storedTat.getD now) + period / rate - burst * (period / rate) ≤ now) ∧
    (¬ (max now (storedTat.getD now) + period / rate - burst * (period / rate) ≤ now) →
      (luaGCRA rate period burst now storedTat).stored = storedTat ∧
      (luaGCRA rate period burst now storedTat).ret
        = ⌈max now (storedTat.getD now) + period / rate - burst * (period / rate) - now⌉) := by
  refine ⟨?_, ?_, ?_⟩
  · unfold gcraSpecRecurrence
    rw [luaGCRA_eq_branches]
    cases storedTat <;> simp [mul_comm]
  · rw [luaGCRA_eq_branches]
    split
    · rename_i hle
      simpa using hle
    · rename_i hgt
      push_neg at hgt
      exact iff_of_false
        (ceil_ne_neg_one_of_pos (by linarith)) (not_le.mpr hgt)
  · intro hno
    rw [luaGCRA_eq_branches, if_neg hno]
    exact ⟨rfl, rfl⟩

/-- Witness for C1 at a concrete input: `rate = 1`, `period = 1`,
`burst = 1`, `now = 0`, key absent: the script admits, stores
`tat = 1` and sets TTL `2`. -/
theorem gcra_follows_spec_recurrence_witness :
    (0:ℚ) < 1 ∧
    luaGCRA 1 1 1 0 none = { ret := -1, stored := some 1, ttl := some 2 } ∧
    luaGCRA 1 1 1 0 none = gcraSpecRecurrence 1 1 1 0 none := by
  have h := gcra_follows_spec_recurrence 1 1 1 0 none (by norm_num)
  refine ⟨by norm_num, ?_, h.1⟩
  unfold luaGCRA
  norm_num

/-! ## Go `http.Header` model

`map[string][]string`, modelled as an association list with unique keys
(Go maps cannot hold a key twice).  `hAdd` is `Header.Add`, `hSet` is
`Header.Set`, `hGet` returns all values under a key (`[]` when absent),
`hGet1` is Go's `Header.Get` (first value or `""`).  Canonicalization of
header names is left to the caller: keys are compared verbatim. -/

abbrev Headers : Type := List (String × List String)

def hGet (hs : Headers) (k : String) : List String :=
  match List.find? (fun p => p.1 == k) hs with
  | some p => p.2
  | none => []

def hGet1 (hs : Headers) (k : String) : String :=
  match hGet hs k with
  | [] => ""
  | v :: _ => v

def hAdd (hs : Headers) (k v : String) : Headers :=
  if List.any hs (fun p => p.1 == k) then
    List.map (fun p => if p.1 == k then (p.1, p.2 ++ [v]) else p) hs
  else
    hs ++ [(k, [v])]

def hSet (hs : Headers) (k v : String) : Headers :=
  if List.any hs (fun p => p.1 == k) then
    List.map (fun p => if p.1 == k then (p.1, [v]) else p) hs
  else
    hs ++ [(k, [v])]

/-- The replay loop `for k, v := range stored.Headers { for _, val := range v
{ w.Header().Add(k, val) } }`, starting from the writer's header map `acc`. -/
def addAllHeaders (acc hs : Headers) : Headers :=
  hs.foldl (fun a p => p.2.foldl (fun a' v => hAdd a' p.1 v) a) acc

/-! ## G2: idempotency gate (src/server/middleware/idempotency.go)

The middleware's interaction with the remote store is embedded by
passing the outcome of each store call as an oracle input: `setnx` is
the result of `SetNX(key, "PROCESSING", 30s)` (`Except` error or the
acquired flag), `getRes` the result of the follow-up `Get`.  A fetched
raw value is modelled by `StoreVal`: the literal `"PROCESSING"` marker,
a JSON-decodable `StoredResponse` (the `json.Marshal`/`json.Unmarshal`
round trip of `StoredResponse` is lossless, so decoding is modelled as
yielding the stored record itself), or an undecodable blob. -/

/-- `StoredResponse`: what the middleware persists for replay. -/
structure StoredResponse where
  status : ℤ
  headers : Headers
  body : String
  deriving DecidableEq

/-- A raw value read back from the store, as the middleware discriminates
it: the `"PROCESSING"` marker, a decodable `StoredResponse` JSON, or a
corrupted blob that fails `json.Unmarshal`. -/
inductive StoreVal where
  | processing
  | respVal (r : StoredResponse)
  | corrupt (raw : String)
  deriving DecidableEq

/-- What the handler wrote into the (captured) response writer. -/
structure HttpResponse where
  status : ℤ
  headers : Headers
  body : String
  deriving DecidableEq

/-- A write the middleware performs against the store after the handler
ran: persist the captured response with the replay TTL, or delete the
processing lock. -/
inductive StoreWrite where
  | setResp (r : StoredResponse) (ttlIsExpiry : Bool)
  | del
  deriving DecidableEq

/-- `responseCapturer`: copies the handler's status and body while
passing writes through; headers live in the shared header map. -/
def captureOf (resp : HttpResponse) : StoredResponse :=
  { status := resp.status, headers := resp.headers, body := resp.body }

/-- Everything observable about one pass through the middleware. -/
structure GateOutcome where
  handlerRun : Bool
  captured : Bool
  clientStatus : ℤ
  clientHeaders : Headers
  clientBody : String
  writes : List StoreWrite
  deriving DecidableEq

/-- Outcome when the request is handed straight to the handler with no
capture and no store writes. -/
def passThrough (resp : HttpResponse) : GateOutcome :=
  { handlerRun := true, captured := false, clientStatus := resp.status,
    clientHeaders := resp.headers, clientBody := resp.body, writes := [] }

/-- `http.Error(w, msg, code)`: plain-text error response. -/
def httpError (msg : String) (code : ℤ) : GateOutcome :=
  { handlerRun := false, captured := false, clientStatus := code,
    clientHeaders := [("Content-Type", ["text/plain; charset=utf-8"]),
                      ("X-Content-Type-Options", ["nosniff"])],
    clientBody := msg ++ "\n", writes := [] }

/-- Run the handler under the `responseCapturer` and persist the result:
delete the lock when no status was written (`statusCode == 0`), else
store the captured response under the replay TTL. -/
def runAndCapture (resp : HttpResponse) : GateOutcome :=
  { handlerRun := true, captured := true, clientStatus := resp.status,
    clientHeaders := resp.headers, clientBody := resp.body,
    writes := if resp.status = 0 then [StoreWrite.del]
              else [StoreWrite.setResp (captureOf resp) true] }

def safeMethod (m : String) : Bool :=
  m == "GET" || m == "HEAD" || m == "OPTIONS"

/-- One pass of `IdempotencyMiddleware` (the response-replay variant of
src/server/middleware/idempotency.go).  `key` is the value of the
configured idempotency header (`""` when absent), `setnx` the outcome of
the atomic claim, `getRes` the outcome of the follow-up read (consulted
only when the claim was not acquired), `resp` what the handler would
write. -/
def idempotencyGate (method key : String)
    (setnx : Except Unit Bool) (getRes : Except Unit StoreVal)
    (resp : HttpResponse) : GateOutcome :=
  if safeMethod method then passThrough resp
  else if key == "" then passThrough resp
  else
    match setnx with
    | Except.error _ => httpError "Internal Server Error" 500
    | Except.ok true => runAndCapture resp
    | Except.ok false =>
      match getRes with
      | Except.error _ => passThrough resp
      | Except.ok StoreVal.processing =>
          httpError "Request is currently being processed" 409
      | Except.ok (StoreVal.respVal stored) =>
          { handlerRun := false, captured := false,
            clientStatus := stored.status,
            clientHeaders :=
              hSet (addAllHeaders [] stored.headers) "X-Idempotency-Hit" "true",
            clientBody := stored.body, writes := [] }
      | Except.ok (StoreVal.corrupt _) => runAndCapture resp

/-- A sample handler response used in concrete counterexamples. -/
def sampleResp : HttpResponse :=
  { status := 201, headers := [("Content-Type", ["application/json"])],
    body := "id-x" }

/-- C2 counterexample: an unsafe `POST` with idempotency key `"k"` whose
`SetNX` claim errors is answered with HTTP 500, not the 503 the claim
states (the gate does fail closed: the handler is not invoked). -/
theorem idem_store_error_not_503 :
    (idempotencyGate "POST" "k" (Except.error ()) (Except.ok StoreVal.processing)
        sampleResp).handlerRun = false ∧
    (idempotencyGate "POST" "k" (Except.error ()) (Except.ok StoreVal.processing)
        sampleResp).clientStatus = 500 ∧
    (idempotencyGate "POST" "k" (Except.error ()) (Except.ok StoreVal.processing)
        sampleResp).clientStatus ≠ 503 := by
  refine ⟨rfl, rfl, ?_⟩
  decide

/-- C2 amended: for every unsafe request carrying an idempotency key, an
error from the remote-store claim fails closed — the handler is not
invoked, no store write happens, and the client receives HTTP 500
(`http.Error(w, "Internal Server Error", http.StatusInternalServerError)`). -/
theorem idem_store_error_fails_closed
    (method key : String) (getRes : Except Unit StoreVal) (resp : HttpResponse)
    (hm : safeMethod method = false) (hk : key ≠ "") :
    (idempotencyGate method key (Except.error ()) getRes resp).handlerRun = false ∧
    (idempotencyGate method key (Except.error ()) getRes resp).clientStatus = 500 ∧
    (idempotencyGate method key (Except.error ()) getRes resp).writes = [] := by
  have hk' : (key == "") = false := by
    simp [hk]
  unfold idempotencyGate
  rw [hm]
  simp [hk', httpError]

/-- Witness for C2 (amended): concrete `POST` with key `"k"`. -/
theorem idem_store_error_fails_closed_witness :
    safeMethod "POST" = false ∧ "k" ≠ "" ∧
    (idempotencyGate "POST" "k" (Except.error ()) (Except.ok StoreVal.processing)
        sampleResp).handlerRun = false ∧
    (idempotencyGate "POST" "k" (Except.error ()) (Except.ok StoreVal.processing)
        sampleResp).clientStatus = 500 := by
  have h := idem_store_error_fails_closed "POST" "k"
    (Except.ok StoreVal.processing) sampleResp (by decide) (by decide)
  exact ⟨by decide, by decide, h.1, h.2.1⟩

/-- C10 counterexample: claim `C10` asserts that when the claim was lost
and the follow-up read errors, the fresh response is captured over the
old record.  At a concrete such input the middleware runs the handler
*uncaptured* and performs no store write at all. -/
theorem idem_read_error_no_capture :
    (idempotencyGate "POST" "k" (Except.ok false) (Except.error ())
        sampleResp).handlerRun = true ∧
    (idempotencyGate "POST" "k" (Except.ok false) (Except.error ())
        sampleResp).captured = false ∧
    (idempotencyGate "POST" "k" (Except.ok false) (Except.error ())
        sampleResp).writes = [] := by
  exact ⟨rfl, rfl, rfl⟩

/-- C10 amended: when the claim is not acquired, a read error fails open
*without capture* (the handler runs, nothing is written back), whereas an
undecodable stored value fails open *with capture* (the handler runs
under the capturer and its fresh response is stored over the old
record). -/
theorem idem_fail_open_branches
    (method key raw : String) (resp : HttpResponse)
    (hm : safeMethod method = false) (hk : key ≠ "") (hs : resp.status ≠ 0) :
    (idempotencyGate method key (Except.ok false) (Except.error ()) resp
        = passThrough resp) ∧
    (idempotencyGate method key (Except.ok false) (Except.error ()) resp).writes = [] ∧
    (idempotencyGate method key (Except.ok false) (Except.ok (StoreVal.corrupt raw)) resp
        = runAndCapture resp) ∧
    (idempotencyGate method key (Except.ok false) (Except.ok (StoreVal.corrupt raw))
        resp).handlerRun = true ∧
    (idempotencyGate method key (Except.ok false) (Except.ok (StoreVal.corrupt raw))
        resp).writes = [StoreWrite.setResp (captureOf resp) true] := by
  have hk' : (key == "") = false := by
    simp [hk]
  unfold idempotencyGate
  rw [hm]
  simp only [Bool.false_eq_true, if_false, hk', Bool.false_eq_true]
  refine ⟨?_, ?_, ?_, ?_, ?_⟩ <;>
    first
      | trivial
      | (unfold runAndCapture
         simp [hs])

/-! Association-list lemmas used to relate the replayed header map to the
captured one. -/

lemma hAdd_fresh (hs : Headers) (k v : String) (h : k ∉ hs.map Prod.fst) :
    hAdd hs k v = hs ++ [(k, [v])] := by
  unfold hAdd
  rw [if_neg]
  intro hc
  rcases List.any_eq_true.mp hc with ⟨p, hp, hpk⟩
  exact h (List.mem_map.mpr ⟨p, hp, by simpa using (beq_iff_eq.mp hpk)⟩)

lemma hAdd_append_last (hs : Headers) (k : String) (vs : List String) (v : String)
    (h : k ∉ hs.map Prod.fst) :
    hAdd (hs ++ [(k, vs)]) k v = hs ++ [(k, vs ++ [v])] := by
  unfold hAdd
  rw [if_pos]
  · rw [List.map_append]
    congr 1
    · have : ∀ p ∈ hs, (if p.1 == k then (p.1, p.2 ++ [v]) else p) = p := by
        intro p hp
        rw [if_neg]
        intro hpk
        exact h (List.mem_map.mpr ⟨p, hp, beq_iff_eq.mp hpk⟩)
      calc List.map (fun p => if p.1 == k then (p.1, p.2 ++ [v]) else p) hs
          = List.map id hs := List.map_congr_left (by simpa using this)
        _ = hs := List.map_id hs
    · simp
  · simp [List.any_append]

lemma foldl_hAdd_vals (hs : Headers) (k : String) (h : k ∉ hs.map Prod.fst) :
    ∀ (vs ws : List String),
      vs.foldl (fun a v => hAdd a k v) (hs ++ [(k, ws)]) = hs ++ [(k, ws ++ vs)] := by
  intro vs
  induction vs with
  | nil => intro ws; simp
  | cons v t ih =>
      intro ws
      have hstep : hAdd (hs ++ [(k, ws)]) k v = hs ++ [(k, ws ++ [v])] :=
        hAdd_append_last hs k ws v h
      calc (v :: t).foldl (fun a v => hAdd a k v) (hs ++ [(k, ws)])
          = t.foldl (fun a v => hAdd a k v) (hs ++ [(k, ws ++ [v])]) := by
            rw [List.foldl_cons, hstep]
        _ = hs ++ [(k, (ws ++ [v]) ++ t)] := ih (ws ++ [v])
        _ = hs ++ [(k, ws ++ v :: t)] := by simp

lemma foldl_hAdd_fresh (hs : Headers) (k : String) (vs : List String)
    (h : k ∉ hs.map Prod.fst) (hne : vs ≠ []) :
    vs.foldl (fun a v => hAdd a k v) hs = hs ++ [(k, vs)] := by
  cases vs with
  | nil => exact absurd rfl hne
  | cons v t =>
      calc (v :: t).foldl (fun a v => hAdd a k v) hs
          = t.foldl (fun a v => hAdd a k v) (hs ++ [(k, [v])]) := by
            rw [List.foldl_cons, hAdd_fresh hs k v h]
        _ = hs ++ [(k, [v] ++ t)] := foldl_hAdd_vals hs k h t [v]
        _ = hs ++ [(k, v :: t)] := by simp

lemma addAllHeaders_eq (hs : Headers) :
    ∀ acc : Headers, (hs.map Prod.fst).Nodup → (∀ p ∈ hs, p.2 ≠ []) →
      (∀ x ∈ hs.map Prod.fst, x ∉ acc.map Prod.fst) →
      addAllHeaders acc hs = acc ++ hs := by
  induction hs with
  | nil => intro acc _ _ _; simp [addAllHeaders]
  | cons p t ih =>
      intro acc hnodup hvals hdisj
      rw [List.map_cons, List.nodup_cons] at hnodup
      have hpfresh : p.1 ∉ acc.map Prod.fst :=
        hdisj p.1 (by simp)
      have hstep : p.2.foldl (fun a' v => hAdd a' p.1 v) acc = acc ++ [p] := by
        rw [foldl_hAdd_fresh acc p.1 p.2 hpfresh (hvals p (by simp))]
      have hrest : addAllHeaders (acc ++ [p]) t = (acc ++ [p]) ++ t := by
        apply ih
        · exact hnodup.2
        · intro q hq; exact hvals q (List.mem_cons_of_mem p hq)
        · intro x hx
          have hxa : x ∉ acc.map Prod.fst :=
            hdisj x (by simp [hx])
          have hxp : x ≠ p.1 := by
            intro hxp
            exact hnodup.1 (hxp ▸ hx)
          simp [hxa, hxp]
      calc addAllHeaders acc (p :: t)
          = addAllHeaders (p.2.foldl (fun a' v => hAdd a' p.1 v) acc) t := by
            simp [addAllHeaders]
        _ = addAllHeaders (acc ++ [p]) t := by rw [hstep]
        _ = (acc ++ [p]) ++ t := hrest
        _ = acc ++ p :: t := by simp

lemma hSet_fresh (hs : Headers) (k v : String) (h : k ∉ hs.map Prod.fst) :
    hSet hs k v = hs ++ [(k, [v])] := by
  unfold hSet
  rw [if_neg]
  intro hc
  rcases List.any_eq_true.mp hc with ⟨p, hp, hpk⟩
  exact h (List.mem_map.mpr ⟨p, hp, beq_iff_eq.mp hpk⟩)

lemma hGet_append_last_self (hs : Headers) (k v : String)
    (h : k ∉ hs.map Prod.fst) :
    hGet (hs ++ [(k, [v])]) k = [v] := by
  induction hs with
  | nil => simp [hGet]
  | cons q t ih =>
      have hqk : (q.1 == k) = false := by
        simp only [beq_eq_false_iff_ne, ne_eq]
        intro hq
        exact h (by simp [hq])
      have ht : k ∉ t.map Prod.fst := fun hx => h (by simp [hx])
      simpa [hGet, List.find?, hqk] using ih ht

lemma hGet_append_last_other (hs : Headers) (k k' v : String) (hne : k' ≠ k) :
    hGet (hs ++ [(k, [v])]) k' = hGet hs k' := by
  induction hs with
  | nil =>
      have : (k == k') = false := by
        simp only [beq_eq_false_iff_ne, ne_eq]
        exact fun hkk => hne hkk.symm
      simp [hGet, List.find?, this]
  | cons q t ih =>
      by_cases hq : q.1 = k'
      · simp [hGet, List.find?, hq]
      · have hq' : (q.1 == k') = false := by simpa using hq
        simpa [hGet, List.find?, hq'] using ih

/-- C7: for every `COMPLETED` record — the capture of an original
response whose header map has unique keys, no empty value lists and no
pre-existing marker — the replayed response is identical to the original
in status, headers (including content type) and body, with the single
addition of `X-Idempotency-Hit: true`, and the handler is not invoked. -/
theorem replay_byte_identical
    (method key : String) (orig resp : HttpResponse)
    (hm : safeMethod method = false) (hk : key ≠ "")
    (hnodup : (orig.headers.map Prod.fst).Nodup)
    (hvals : ∀ p ∈ orig.headers, p.2 ≠ [])
    (hmarker : "X-Idempotency-Hit" ∉ orig.headers.map Prod.fst) :
    (idempotencyGate method key (Except.ok false)
        (Except.ok (StoreVal.respVal (captureOf orig))) resp).handlerRun = false ∧
    (idempotencyGate method key (Except.ok false)
        (Except.ok (StoreVal.respVal (captureOf orig))) resp).clientStatus
      = orig.status ∧
    (idempotencyGate method key (Except.ok false)
        (Except.ok (StoreVal.respVal (captureOf orig))) resp).clientBody
      = orig.body ∧
    hGet (idempotencyGate method key (Except.ok false)
        (Except.ok (StoreVal.respVal (captureOf orig))) resp).clientHeaders
        "X-Idempotency-Hit" = ["true"] ∧
    ∀ k', k' ≠ "X-Idempotency-Hit" →
      hGet (idempotencyGate method key (Except.ok false)
          (Except.ok (StoreVal.respVal (captureOf orig))) resp).clientHeaders k'
        = hGet orig.headers k' := by
  have hk' : (key == "") = false := by simp [hk]
  have hgate : idempotencyGate method key (Except.ok false)
      (Except.ok (StoreVal.respVal (captureOf orig))) resp
      = { handlerRun := false, captured := false,
          clientStatus := (captureOf orig).status,
          clientHeaders :=
            hSet (addAllHeaders [] (captureOf orig).headers)
              "X-Idempotency-Hit" "true",
          clientBody := (captureOf orig).body, writes := [] } := by
    unfold idempotencyGate
    rw [hm]
    simp [hk']
  have hrebuild : addAllHeaders [] (captureOf orig).headers = orig.headers := by
    have := addAllHeaders_eq orig.headers [] hnodup hvals (by simp)
    simpa [captureOf] using this
  have hheaders : (idempotencyGate method key (Except.ok false)
      (Except.ok (StoreVal.respVal (captureOf orig))) resp).clientHeaders
      = orig.headers ++ [("X-Idempotency-Hit", ["true"])] := by
    rw [hgate]
    show hSet (addAllHeaders [] (captureOf orig).headers)
        "X-Idempotency-Hit" "true" = _
    rw [hrebuild, hSet_fresh orig.headers _ _ hmarker]
  refine ⟨by rw [hgate], by rw [hgate]; rfl, by rw [hgate]; rfl, ?_, ?_⟩
  · rw [hheaders]
    exact hGet_append_last_self orig.headers _ _ hmarker
  · intro k' hk'ne
    rw [hheaders]
    exact hGet_append_last_other orig.headers _ k' _ hk'ne

/-- Witness for C7: a concrete `201` JSON response replayed under
`POST` with key `"k"`. -/
theorem replay_byte_identical_witness :
    safeMethod "POST" = false ∧ "k" ≠ "" ∧
    (idempotencyGate "POST" "k" (Except.ok false)
        (Except.ok (StoreVal.respVal (captureOf sampleResp))) sampleResp).clientStatus
      = 201 ∧
    hGet (idempotencyGate "POST" "k" (Except.ok false)
        (Except.ok (StoreVal.respVal (captureOf sampleResp)))
        sampleResp).clientHeaders "X-Idempotency-Hit" = ["true"] ∧
    hGet (idempotencyGate "POST" "k" (Except.ok false)
        (Except.ok (StoreVal.respVal (captureOf sampleResp)))
        sampleResp).clientHeaders "Content-Type"
      = hGet sampleResp.headers "Content-Type" := by
  have h := replay_byte_identical "POST" "k" sampleResp sampleResp
    (by decide) (by decide) (by decide) (by decide) (by decide)
  exact ⟨by decide, by decide, h.2.1, h.2.2.2.1,
    h.2.2.2.2 "Content-Type" (by decide)⟩

/-- Witness for C10 (amended): concrete `POST`, key `"k"`, corrupt blob
`"garbage"`, handler response `sampleResp`. -/
theorem idem_fail_open_branches_witness :
    safeMethod "POST" = false ∧ "k" ≠ "" ∧ sampleResp.status ≠ 0 ∧
    (idempotencyGate "POST" "k" (Except.ok false) (Except.error ()) sampleResp
        = passThrough sampleResp) ∧
    (idempotencyGate "POST" "k" (Except.ok false) (Except.ok (StoreVal.corrupt "garbage"))
        sampleResp).writes = [StoreWrite.setResp (captureOf sampleResp) true] := by
  have h := idem_fail_open_branches "POST" "k" "garbage" sampleResp
    (by decide) (by decide) (by decide)
  exact ⟨by decide, by decide, by decide, h.1, h.2.2.2.2⟩

/-! ## G3: JWKS caching client (src/crypto/jwks_client.go)

The HTTP fetch is embedded as an oracle (`FetchOutcome`); the JSON body,
when one decodes, is the list of `jsonWebKey` records.  Base64url
(`base64.RawURLEncoding`) and the JWK → RSA key conversion are embedded
in full since they decide which keys a response contributes. -/

structure jsonWebKey where
  kty : String
  use : String
  kid : String
  n : String
  e : String
  deriving DecidableEq

/-- One base64url alphabet character to its 6-bit value. -/
def b64urlVal (c : Char) : Option ℕ :=
  if 'A' ≤ c ∧ c ≤ 'Z' then some (c.toNat - 'A'.toNat)
  else if 'a' ≤ c ∧ c ≤ 'z' then some (c.toNat - 'a'.toNat + 26)
  else if '0' ≤ c ∧ c ≤ '9' then some (c.toNat - '0'.toNat + 52)
  else if c = '-' then some 62
  else if c = '_' then some 63
  else none

/-- Decode a list of 6-bit groups (a final quantum of 2, 3 or 4 of them)
into bytes, dropping the padding bits as `base64.RawURLEncoding` does. -/
def b64Quantum (g : List ℕ) : Option (List ℕ) :=
  match g with
  | [a, b] => some [a * 4 + b / 16]
  | [a, b, c] => some [a * 4 + b / 16, (b % 16) * 16 + c / 4]
  | [a, b, c, d] => some [a * 4 + b / 16, (b % 16) * 16 + c / 4, (c % 4) * 64 + d]
  | _ => none

def b64Groups (vs : List ℕ) : Option (List ℕ) :=
  match vs with
  | [] => some []
  | a :: b :: c :: d :: rest =>
      match b64Groups rest with
      | none => none
      | some tail =>
          match b64Quantum [a, b, c, d] with
          | none => none
          | some bs => some (bs ++ tail)
  | g =>
      if g.length = 2 ∨ g.length = 3 then b64Quantum g else none

/-- `base64.RawURLEncoding.DecodeString`: reject characters outside the
URL-safe alphabet and a final quantum of one character. -/
def base64urlDecode (s : String) : Option (List ℕ) :=
  match List.mapM b64urlVal s.data with
  | none => none
  | some vs => b64Groups vs

structure RSAPublicKey where
  n : ℕ
  e : ℕ
  deriving DecidableEq

def bytesToNat (bs : List ℕ) : ℕ :=
  bs.foldl (fun a b => a * 256 + b) 0

/-- `jsonWebKey.toRSAPublicKey`: decode `n` and `e` from base64url,
reject an empty or zero exponent. -/
def toRSAPublicKey (j : jsonWebKey) : Except String RSAPublicKey :=
  match base64urlDecode j.n with
  | none => Except.error "invalid modulus (n)"
  | some nBytes =>
    match base64urlDecode j.e with
    | none => Except.error "invalid exponent (e)"
    | some eBytes =>
      if eBytes = [] then Except.error "invalid exponent (e): empty bytes"
      else
        let eVal := eBytes.foldl (fun a b => a * 256 + b) 0
        if eVal = 0 then Except.error "invalid exponent (e): value is zero"
        else Except.ok { n := bytesToNat nBytes, e := eVal }

/-- The kid → key cache, a Go map modelled as an assoc list with
update-or-insert writes. -/
abbrev KeyCache : Type := List (String × RSAPublicKey)

def kGet (c : KeyCache) (kid : String) : Option RSAPublicKey :=
  match List.find? (fun p => p.1 == kid) c with
  | some p => some p.2
  | none => none

def kSet (c : KeyCache) (kid : String) (k : RSAPublicKey) : KeyCache :=
  if List.any c (fun p => p.1 == kid) then
    List.map (fun p => if p.1 == kid then (p.1, k) else p) c
  else
    c ++ [(kid, k)]

/-- The cache-construction loop of `fetchKeys`: keep only `kty == "RSA"`,
`use == "sig"`, non-empty `kid`, and a convertible key. -/
def buildCache (keys : List jsonWebKey) : KeyCache :=
  keys.foldl (fun acc j =>
    if j.kty ≠ "RSA" ∨ j.use ≠ "sig" then acc
    else if j.kid = "" then acc
    else
      match toRSAPublicKey j with
      | Except.error _ => acc
      | Except.ok k => kSet acc j.kid k) []

/-- Outcome of the HTTP round trip to the JWKS endpoint. -/
inductive FetchOutcome where
  | netErr
  | badStatus (code : ℤ)
  | badJson
  | ok (keys : List jsonWebKey)
  deriving DecidableEq

structure ClientState where
  cache : KeyCache
  lastUpdated : ℤ
  deriving DecidableEq

/-- `fetchKeys`: compute the replacement cache or fail; a response with
zero valid RSA signature keys is a failure. -/
def fetchKeys (out : FetchOutcome) : Except String KeyCache :=
  match out with
  | FetchOutcome.netErr => Except.error "failed to fetch JWKS URL"
  | FetchOutcome.badStatus code =>
      Except.error ("JWKS endpoint returned status " ++ toString code)
  | FetchOutcome.badJson => Except.error "failed to decode JWKS response"
  | FetchOutcome.ok keys =>
      let newCache := buildCache keys
      if newCache = [] then
        Except.error "JWKS response contains zero valid RSA keys for signature"
      else Except.ok newCache

/-- The effect of one (single-flight guarded) refresh on the client
state: a successful fetch atomically replaces the cache and bumps the
watermark; a failed fetch leaves the state untouched. -/
def applyRefresh (st : ClientState) (out : FetchOutcome) (now : ℤ) : ClientState :=
  match fetchKeys out with
  | Except.error _ => st
  | Except.ok newCache => { cache := newCache, lastUpdated := now }

/-- `NewJWKSCachingClient`: mandatory URL and issuer, then a synchronous
initial fetch whose failure is fatal. -/
def newJWKSCachingClient (jwksURL issuer : String) (initialFetch : FetchOutcome)
    (now : ℤ) : Except String ClientState :=
  if jwksURL = "" ∨ issuer = "" then
    Except.error "jwks client: URL and Issuer are mandatory"
  else
    match fetchKeys initialFetch with
    | Except.error e => Except.error ("jwks client: FATAL on initial key fetch: " ++ e)
    | Except.ok c => Except.ok { cache := c, lastUpdated := now }

/-- C5: after a successful construction the key cache is never empty:
a successful fetch yields a non-empty cache (zero valid RSA signing keys
is a failed refresh), every successful refresh replaces the cache with
that non-empty map, every failed refresh leaves the state unchanged, and
hence non-emptiness is invariant under any sequence of refreshes. -/
theorem jwks_cache_never_empty
    (url issuer : String) (st₀ : ClientState) (st : ClientState)
    (out initialFetch : FetchOutcome) (now t₀ : ℤ)
    (hinit : newJWKSCachingClient url issuer initialFetch t₀ = Except.ok st₀) :
    st₀.cache ≠ [] ∧
    (∀ c, fetchKeys out = Except.ok c →
      c ≠ [] ∧ applyRefresh st out now = { cache := c, lastUpdated := now }) ∧
    (∀ e, fetchKeys out = Except.error e → applyRefresh st out now = st) ∧
    (st.cache ≠ [] → (applyRefresh st out now).cache ≠ []) := by
  have hfetch : ∀ o c, fetchKeys o = Except.ok c → c ≠ [] := by
    intro o c hc
    cases o with
    | netErr => exact absurd hc (by simp [fetchKeys])
    | badStatus code => exact absurd hc (by simp [fetchKeys])
    | badJson => exact absurd hc (by simp [fetchKeys])
    | ok keys =>
        simp only [fetchKeys] at hc
        by_cases hempty : buildCache keys = []
        · rw [if_pos hempty] at hc
          exact absurd hc (by simp)
        · rw [if_neg hempty] at hc
          cases hc
          exact hempty
  refine ⟨?_, ?_, ?_, ?_⟩
  · unfold newJWKSCachingClient at hinit
    by_cases hmand : url = "" ∨ issuer = ""
    · rw [if_pos hmand] at hinit
      exact absurd hinit (by simp)
    · rw [if_neg hmand] at hinit
      cases hfk : fetchKeys initialFetch with
      | error e => rw [hfk] at hinit; exact absurd hinit (by simp)
      | ok c =>
          rw [hfk] at hinit
          cases hinit
          exact hfetch initialFetch c hfk
  · intro c hc
    refine ⟨hfetch out c hc, ?_⟩
    unfold applyRefresh
    rw [hc]
  · intro e he
    unfold applyRefresh
    rw [he]
  · intro hne
    unfold applyRefresh
    cases hfk : fetchKeys out with
    | error e => exact hne
    | ok c => exact hfetch out c hfk

/-- A tiny JWKS response with one valid RSA signing key
(`n = "AQAB"` decodes to bytes `[1,0,65]`, `e = "AQAB"` to 65537). -/
def sampleJWK : jsonWebKey :=
  { kty := "RSA", use := "sig", kid := "k1", n := "AQAB", e := "AQAB" }

/-- Witness for C5: constructing the client over a one-key response
succeeds with a non-empty cache, and a failed refresh on that state
changes nothing. -/
theorem jwks_cache_never_empty_witness :
    newJWKSCachingClient "https://jwks" "iss" (FetchOutcome.ok [sampleJWK]) 0
      = Except.ok { cache := [("k1", { n := 65537, e := 65537 })], lastUpdated := 0 } ∧
    ({ cache := [("k1", { n := 65537, e := 65537 })], lastUpdated := 0 } : ClientState).cache
      ≠ [] ∧
    applyRefresh { cache := [("k1", { n := 65537, e := 65537 })], lastUpdated := 0 }
        FetchOutcome.netErr 5
      = { cache := [("k1", { n := 65537, e := 65537 })], lastUpdated := 0 } := by
  have hinit : newJWKSCachingClient "https://jwks" "iss" (FetchOutcome.ok [sampleJWK]) 0
      = Except.ok { cache := [("k1", { n := 65537, e := 65537 })], lastUpdated := 0 } := by
    rfl
  have h := jwks_cache_never_empty "https://jwks" "iss"
    { cache := [("k1", { n := 65537, e := 65537 })], lastUpdated := 0 }
    { cache := [("k1", { n := 65537, e := 65537 })], lastUpdated := 0 }
    FetchOutcome.netErr (FetchOutcome.ok [sampleJWK]) 5 0 hinit
  exact ⟨hinit, h.1, h.2.2.1 "failed to fetch JWKS URL" (by rfl)⟩

/-! The key-resolution step of `VerifyToken`'s keyfunc: cache lookup,
one single-flight-guarded emergency refresh on a miss, one retry, then
rejection.  `fetches` counts how many times the JWKS endpoint is hit. -/

structure LookupResult where
  key : Except String RSAPublicKey
  fetches : ℕ
  finalState : ClientState

/-- The keyfunc's cache-lookup-and-refresh logic (`VerifyToken`,
src/crypto/jwks_client.go): `refreshOutcome` is the oracle for the
emergency fetch, consulted only on a miss. -/
def lookupKeyWithRefresh (st : ClientState) (kid : String)
    (refreshOutcome : FetchOutcome) (now : ℤ) : LookupResult :=
  match kGet st.cache kid with
  | some k => { key := Except.ok k, fetches := 0, finalState := st }
  | none =>
    match fetchKeys refreshOutcome with
    | Except.error e =>
        { key := Except.error ("failed key refresh: " ++ e), fetches := 1,
          finalState := st }
    | Except.ok newCache =>
        let st' : ClientState := { cache := newCache, lastUpdated := now }
        match kGet st'.cache kid with
        | some k => { key := Except.ok k, fetches := 1, finalState := st' }
        | none =>
            { key := Except.error ("kid " ++ kid ++ " not found in JWKS even after refresh"),
              fetches := 1, finalState := st' }

/-- The verification-level error taxonomy. -/
inductive AuthError where
  | expired
  | invalidToken
  deriving DecidableEq

/-- A keyfunc failure surfaces through `jwt.ParseWithClaims` as a
non-expiry parse error, which `VerifyToken` wraps into
`ErrInvalidToken` (`AUTH_INVALID_TOKEN`). -/
def keyfuncErrToAuth (_e : String) : AuthError :=
  AuthError.invalidToken

/-! `singleflight.Group.Do` on the single key `"refresh_keys"` used by
`doRefresh`: an arriving caller joins the in-flight fetch if one exists,
otherwise starts a new one; completion releases it.  `started`/`done`
count fetch executions begun and finished. -/

inductive SFEvent where
  | arrive
  | complete
  deriving DecidableEq

structure SFState where
  inFlight : Bool
  started : ℕ
  done : ℕ
  deriving DecidableEq

def sfInit : SFState := { inFlight := false, started := 0, done := 0 }

def sfStep (s : SFState) (e : SFEvent) : SFState :=
  match e with
  | SFEvent.arrive =>
      if s.inFlight then s
      else { s with inFlight := true, started := s.started + 1 }
  | SFEvent.complete =>
      if s.inFlight then { s with inFlight := false, done := s.done + 1 }
      else s

def sfRun (events : List SFEvent) : SFState :=
  events.foldl sfStep sfInit

/-- Outstanding refreshes: fetches started but not yet finished. -/
def sfOutstanding (s : SFState) : ℕ :=
  s.started - s.done

def sfInv (s : SFState) : Prop :=
  s.started = s.done + (if s.inFlight then 1 else 0)

lemma sfInv_init : sfInv sfInit := by
  simp [sfInv, sfInit]

lemma sfInv_step (s : SFState) (e : SFEvent) (h : sfInv s) : sfInv (sfStep s e) := by
  cases e with
  | arrive =>
      unfold sfStep
      by_cases hf : s.inFlight
      · simpa [hf]
      · simp only [hf, if_false, Bool.false_eq_true]
        unfold sfInv at h ⊢
        simp [hf] at h
        simp [h]
  | complete =>
      unfold sfStep
      by_cases hf : s.inFlight
      · simp only [hf, if_true]
        unfold sfInv at h ⊢
        simp [hf] at h
        simp [h]
      · simpa [hf]

lemma sfInv_run (events : List SFEvent) : sfInv (sfRun events) := by
  unfold sfRun
  induction events using List.reverseRecOn with
  | nil => exact sfInv_init
  | append_singleton t e ih =>
      rw [List.foldl_append]
      exact sfInv_step _ e ih

/-- C6: a `kid` missing from the cache triggers exactly one emergency
refresh; if the `kid` is still absent afterwards the token is rejected
with `AUTH_INVALID_TOKEN` without a second fetch (likewise when the
refresh itself fails); and in the single-flight model every interleaving
of callers keeps at most one refresh outstanding. -/
theorem kid_miss_single_refresh
    (st : ClientState) (kid : String) (refreshOutcome : FetchOutcome) (now : ℤ)
    (hmiss : kGet st.cache kid = none) :
    (lookupKeyWithRefresh st kid refreshOutcome now).fetches = 1 ∧
    (∀ e, (lookupKeyWithRefresh st kid refreshOutcome now).key = Except.error e →
      keyfuncErrToAuth e = AuthError.invalidToken) ∧
    (kGet (lookupKeyWithRefresh st kid refreshOutcome now).finalState.cache kid = none →
      ∃ e, (lookupKeyWithRefresh st kid refreshOutcome now).key = Except.error e) ∧
    (∀ events : List SFEvent, sfOutstanding (sfRun events) ≤ 1) := by
  have hform : lookupKeyWithRefresh st kid refreshOutcome now =
      (match fetchKeys refreshOutcome with
        | Except.error e =>
            { key := Except.error ("failed key refresh: " ++ e), fetches := 1,
              finalState := st }
        | Except.ok newCache =>
            match kGet newCache kid with
            | some k => { key := Except.ok k, fetches := 1,
                          finalState := { cache := newCache, lastUpdated := now } }
            | none =>
                { key := Except.error
                    ("kid " ++ kid ++ " not found in JWKS even after refresh"),
                  fetches := 1,
                  finalState := { cache := newCache, lastUpdated := now } }) := by
    unfold lookupKeyWithRefresh
    rw [hmiss]
  refine ⟨?_, ?_, ?_, ?_⟩
  · rw [hform]
    cases hfk : fetchKeys refreshOutcome with
    | error e => rfl
    | ok c =>
        cases hc : kGet c kid <;> simp [hc]
  · intro e _
    rfl
  · intro hstill
    rw [hform] at hstill ⊢
    cases hfk : fetchKeys refreshOutcome with
    | error e =>
        exact ⟨_, rfl⟩
    | ok c =>
        rw [hfk] at hstill
        dsimp only at hstill ⊢
        cases hc : kGet c kid with
        | some k =>
            rw [hc] at hstill
            exact absurd (show kGet c kid = none from hstill) (by simp [hc])
        | none =>
            exact ⟨_, rfl⟩
  · intro events
    have h := sfInv_run events
    unfold sfInv at h
    unfold sfOutstanding
    by_cases hf : (sfRun events).inFlight <;> simp [hf] at h <;> omega

/-- Witness for C6: empty cache, failing emergency refresh: one fetch,
rejection mapped to `AUTH_INVALID_TOKEN`; singleflight trace
arrive-arrive-complete runs a single fetch. -/
theorem kid_miss_single_refresh_witness :
    kGet ({ cache := [], lastUpdated := 0 } : ClientState).cache "k2" = none ∧
    (lookupKeyWithRefresh { cache := [], lastUpdated := 0 } "k2"
        FetchOutcome.netErr 7).fetches = 1 ∧
    keyfuncErrToAuth "failed key refresh: failed to fetch JWKS URL"
      = AuthError.invalidToken ∧
    sfOutstanding (sfRun [SFEvent.arrive, SFEvent.arrive, SFEvent.complete]) ≤ 1 ∧
    (sfRun [SFEvent.arrive, SFEvent.arrive, SFEvent.complete]).started = 1 := by
  have h := kid_miss_single_refresh { cache := [], lastUpdated := 0 } "k2"
    FetchOutcome.netErr 7 (by rfl)
  exact ⟨by rfl, h.1,
    h.2.1 "failed key refresh: failed to fetch JWKS URL" (by rfl),
    h.2.2.2 [SFEvent.arrive, SFEvent.arrive, SFEvent.complete], by rfl⟩

/-! ## Claim validation in `VerifyToken`

`jwt.ParseWithClaims` is called with `jwt.WithIssuer(c.issuer)` and
`jwt.WithExpirationRequired()` and **no** `jwt.WithLeeway`, so the
`golang-jwt/v5` validator runs with zero leeway: `exp` is valid iff
`now < exp`, `nbf` iff `nbf ≤ now`, `iat` (validated by default) iff
`iat ≤ now`.  `VerifyToken` maps a validation result containing
`ErrTokenExpired` to `ErrExpiredToken` (`AUTH_EXPIRED`) and every other
failure — bad signature included — to `ErrInvalidToken`
(`AUTH_INVALID_TOKEN`).  Times are `ℤ` seconds. -/

structure TokenClaims where
  iss : Option String
  exp : Option ℤ
  nbf : Option ℤ
  iat : Option ℤ
  deriving DecidableEq

inductive JwtErr where
  | missingExp
  | expired
  | notYetValid
  | iatInFuture
  | badIssuer
  deriving DecidableEq

/-- The `golang-jwt/v5` validator as configured by `VerifyToken`
(`leeway = 0`, `exp` required, expected issuer). -/
def validateClaims (now : ℤ) (expectedIss : String) (c : TokenClaims) : List JwtErr :=
  (match c.exp with
   | none => [JwtErr.missingExp]
   | some e => if e ≤ now then [JwtErr.expired] else []) ++
  (match c.iat with
   | none => []
   | some i => if now < i then [JwtErr.iatInFuture] else []) ++
  (match c.nbf with
   | none => []
   | some n => if now < n then [JwtErr.notYetValid] else []) ++
  (if c.iss = some expectedIss then [] else [JwtErr.badIssuer])

/-- `VerifyToken`'s observable verdict on an otherwise-parsed token:
a signature failure or any non-expiry validation failure surfaces as
`AUTH_INVALID_TOKEN`; a validation result containing `ErrTokenExpired`
surfaces as `AUTH_EXPIRED`. -/
def verifyTokenClaims (now : ℤ) (issuer : String) (sigOk : Bool)
    (c : TokenClaims) : Except AuthError TokenClaims :=
  if !sigOk then Except.error AuthError.invalidToken
  else
    let errs := validateClaims now issuer c
    if errs = [] then Except.ok c
    else if errs.contains JwtErr.expired then Except.error AuthError.expired
    else Except.error AuthError.invalidToken

/-- C4 counterexample: a token presented 30 s after `exp` (signature
and issuer fine, no `nbf`/`iat`) is already rejected with the expired
error, although `exp < now − 1 min` does not hold — the code applies no
clock-skew leeway. -/
theorem token_expiry_rejects_within_skew :
    verifyTokenClaims 30 "iss" true
        { iss := some "iss", exp := some 0, nbf := none, iat := none }
      = Except.error AuthError.expired ∧
    ¬ ((0:ℤ) < 30 - 60) := by
  constructor
  · rfl
  · decide

/-- C4 amended: verification applies **no** clock-skew tolerance: for an
otherwise-valid token the expired error is returned exactly when
`exp ≤ now`.  The boundary behaviours the claim quotes still hold: a
token presented 59 s before `exp` is accepted and one presented 61 s
after `exp` is rejected. -/
theorem token_expiry_exact
    (issuer : String) (c : TokenClaims) (e : ℤ)
    (hexp : c.exp = some e) (hiss : c.iss = some issuer)
    (hnbf : c.nbf = none) (hiat : c.iat = none) :
    (∀ now : ℤ,
      (verifyTokenClaims now issuer true c = Except.error AuthError.expired ↔ e ≤ now)) ∧
    verifyTokenClaims (e - 59) issuer true c = Except.ok c ∧
    verifyTokenClaims (e + 61) issuer true c = Except.error AuthError.expired := by
  have herrs : ∀ now : ℤ, validateClaims now issuer c
      = (if e ≤ now then [JwtErr.expired] else []) := by
    intro now
    unfold validateClaims
    rw [hexp, hiss, hnbf, hiat]
    simp
  have hverdict : ∀ now : ℤ, verifyTokenClaims now issuer true c
      = if e ≤ now then Except.error AuthError.expired else Except.ok c := by
    intro now
    unfold verifyTokenClaims
    rw [herrs now]
    by_cases h : e ≤ now
    · simp [h]
    · simp [h]
  refine ⟨?_, ?_, ?_⟩
  · intro now
    rw [hverdict now]
    by_cases h : e ≤ now
    · simp [h]
    · simp [h]
  · rw [hverdict (e - 59)]
    rw [if_neg (by omega)]
  · rw [hverdict (e + 61)]
    rw [if_pos (by omega)]

/-- Witness for C4 (amended) at `exp = 100`, issuer `"iss"`. -/
theorem token_expiry_exact_witness :
    (({ iss := some "iss", exp := some 100, nbf := none, iat := none } : TokenClaims).exp
        = some 100) ∧
    verifyTokenClaims 100 "iss" true
        { iss := some "iss", exp := some 100, nbf := none, iat := none }
      = Except.error AuthError.expired ∧
    verifyTokenClaims 41 "iss" true
        { iss := some "iss", exp := some 100, nbf := none, iat := none }
      = Except.ok { iss := some "iss", exp := some 100, nbf := none, iat := none } ∧
    verifyTokenClaims 161 "iss" true
        { iss := some "iss", exp := some 100, nbf := none, iat := none }
      = Except.error AuthError.expired := by
  have h := token_expiry_exact "iss"
    { iss := some "iss", exp := some 100, nbf := none, iat := none } 100
    rfl rfl rfl rfl
  exact ⟨rfl, (h.1 100).mpr (by omega), h.2.1, h.2.2⟩

/-! ## The middleware around the script: HTTP fallback and gRPC
    (src/server/middleware/ratelimit.go, grpc_ratelimit.go)

The Redis call is an oracle (`Except Unit ℤ`: error, or the script's
integral return value) and the process-local `rate.Limiter.Allow()`
verdict is a boolean oracle.  `emergencyLimiterParams` records the
constructor arguments `rate.NewLimiter(rate.Limit(rps*2), burst*2)`. -/

def emergencyLimiterParams (rps burst : ℤ) : ℤ × ℤ :=
  (rps * 2, burst * 2)

structure HTTPRLResult where
  handlerRun : Bool
  status : Option ℤ
  headers : Headers
  deriving DecidableEq

/-- One pass of `RateLimitMiddleware`'s request function. -/
def rateLimitHTTP (rps burst : ℤ) (redisRes : Except Unit ℤ)
    (localAllow : Bool) : HTTPRLResult :=
  if rps ≤ 0 then { handlerRun := true, status := none, headers := [] }
  else
    match redisRes with
    | Except.error _ =>
        if !localAllow then
          { handlerRun := false, status := some 503,
            headers := [("X-RateLimit-Fallback", ["true"])] }
        else
          { handlerRun := true, status := none, headers := [] }
    | Except.ok res =>
        if res ≥ 0 then
          { handlerRun := false, status := some 429,
            headers := [("Retry-After", [toString res]),
                        ("X-RateLimit-Limit", [toString rps])] }
        else
          { handlerRun := true, status := none,
            headers := [("X-RateLimit-Limit", [toString rps])] }

inductive GRPCCode where
  | okPass
  | resourceExhausted
  deriving DecidableEq

structure GRPCRLResult where
  handlerRun : Bool
  code : GRPCCode
  trailer : Headers
  deriving DecidableEq

/-- One pass of `GRPCRateLimitInterceptor`: a Redis error fails open —
the handler is invoked unconditionally, no local bucket exists on this
path. -/
def rateLimitGRPC (rate burst : ℤ) (redisRes : Except Unit ℤ) : GRPCRLResult :=
  if rate ≤ 0 then { handlerRun := true, code := GRPCCode.okPass, trailer := [] }
  else
    match redisRes with
    | Except.error _ =>
        { handlerRun := true, code := GRPCCode.okPass, trailer := [] }
    | Except.ok res =>
        if res ≥ 0 then
          { handlerRun := false, code := GRPCCode.resourceExhausted,
            trailer := [("x-retry-after", [toString res]),
                        ("x-ratelimit-limit", [toString rate])] }
        else
          { handlerRun := true, code := GRPCCode.okPass, trailer := [] }

/-- C3 counterexample: with the remote counter erroring and the local
bucket allowing, the HTTP middleware admits the request **without** the
`X-RateLimit-Fallback` marker (the code sets that header only on the
fallback-deny path), and the gRPC interceptor admits on a remote error
without consulting any local bucket at all — both contradicting the
claim. -/
theorem fallback_marker_on_deny_not_admit :
    (rateLimitHTTP 10 10 (Except.error ()) true).handlerRun = true ∧
    hGet (rateLimitHTTP 10 10 (Except.error ()) true).headers "X-RateLimit-Fallback"
      = [] ∧
    hGet (rateLimitHTTP 10 10 (Except.error ()) false).headers "X-RateLimit-Fallback"
      = ["true"] ∧
    (rateLimitGRPC 10 10 (Except.error ())).handlerRun = true := by
  exact ⟨rfl, rfl, rfl, rfl⟩

/-- C3 amended: on the HTTP path a remote-counter error consults the
process-local bucket (constructed with rate `2·R` and capacity `2·B`):
if it allows, the request is admitted with **no** marker header; if it
does not, the request is denied with 503, the handler is not invoked,
and the 503 response carries `X-RateLimit-Fallback: true`.  On the gRPC
path a remote-counter error fails open: the handler is invoked
unconditionally. -/
theorem fallback_path_behaviour
    (rps burst : ℤ) (hr : 0 < rps) :
    emergencyLimiterParams rps burst = (2 * rps, 2 * burst) ∧
    (rateLimitHTTP rps burst (Except.error ()) true
      = { handlerRun := true, status := none, headers := [] }) ∧
    (rateLimitHTTP rps burst (Except.error ()) false
      = { handlerRun := false, status := some 503,
          headers := [("X-RateLimit-Fallback", ["true"])] }) ∧
    (rateLimitGRPC rps burst (Except.error ())
      = { handlerRun := true, code := GRPCCode.okPass, trailer := [] }) := by
  have hnot : ¬ rps ≤ 0 := by omega
  refine ⟨?_, ?_, ?_, ?_⟩
  · unfold emergencyLimiterParams
    rw [mul_comm rps 2, mul_comm burst 2]
  · unfold rateLimitHTTP
    rw [if_neg hnot]
    rfl
  · unfold rateLimitHTTP
    rw [if_neg hnot]
    rfl
  · unfold rateLimitGRPC
    rw [if_neg hnot]

/-- Witness for C3 (amended) at `R = 10`, `B = 10`. -/
theorem fallback_path_behaviour_witness :
    (0:ℤ) < 10 ∧
    emergencyLimiterParams 10 10 = (20, 20) ∧
    (rateLimitHTTP 10 10 (Except.error ()) false).status = some 503 ∧
    (rateLimitGRPC 10 10 (Except.error ())).handlerRun = true := by
  have h := fallback_path_behaviour 10 10 (by decide)
  refine ⟨by decide, ?_, ?_, ?_⟩
  · rw [h.1]
    decide
  · rw [h.2.2.1]
  · rw [h.2.2.2]

/-! ## C5/C4: trusted-gateway strategy and the transport adapter
    (src/server/middleware/strategy_header.go, auth.go)

IPv4 peer addresses are 32-bit naturals; a CIDR is its base address plus
a prefix length, and `net.IPNet.Contains` is equality of the masked
prefixes.  `remoteIP = none` stands for an unparsable
`RemoteAddr`/`ParseIP` failure (the two distinct error strings of that
path are collapsed into one). -/

structure CIDR where
  base : ℕ
  maskLen : ℕ
  deriving DecidableEq

def cidrContains (c : CIDR) (ip : ℕ) : Bool :=
  ip / 2 ^ (32 - c.maskLen) == c.base / 2 ^ (32 - c.maskLen)

structure AuthCtxVals where
  userID : String
  email : String
  roles : List String
  deriving DecidableEq

/-- `TrustedHeaderStrategy.Authenticate`: gatekeep on the peer IP first,
then extract the identity headers. -/
def trustedHeaderAuthenticate (cidrs : List CIDR)
    (hUserID hRoles hEmail : String)
    (remoteIP : Option ℕ) (hdrs : Headers) : Except String AuthCtxVals :=
  match remoteIP with
  | none => Except.error "unauthorized gateway connection"
  | some ip =>
    if !(cidrs.any (fun c => cidrContains c ip)) then
      Except.error "forbidden: untrusted source"
    else
      let userID := hGet1 hdrs hUserID
      if userID = "" then Except.error "missing identity header"
      else
        let email := hGet1 hdrs hEmail
        let rawRoles := hGet1 hdrs hRoles
        let roles :=
          if rawRoles ≠ "" then
            (List.map String.trim (rawRoles.splitOn ",")).filter (fun s => s ≠ "")
          else []
        Except.ok { userID := userID, email := email, roles := roles }

inductive RPCStatus where
  | okPass
  | unauthenticated
  | permissionDenied
  deriving DecidableEq

/-- `AuthMiddleware.HTTPMiddleware`: any strategy error is answered with
`http.StatusUnauthorized`; success runs the handler. -/
def authHTTPOutcome (res : Except String AuthCtxVals) : Option ℤ × Bool :=
  match res with
  | Except.error _ => (some 401, false)
  | Except.ok _ => (none, true)

/-- `AuthMiddleware.GRPCUnaryInterceptor`: any strategy error becomes
`codes.Unauthenticated`. -/
def authGRPCOutcome (res : Except String AuthCtxVals) : RPCStatus :=
  match res with
  | Except.error _ => RPCStatus.unauthenticated
  | Except.ok _ => RPCStatus.okPass

/-- C9 counterexample: a peer outside the single trusted CIDR
`0.0.0.0/32`, presenting a valid identity header, is rejected — but the
HTTP adapter answers 401 (and the RPC adapter `UNAUTHENTICATED`), not
the 403/`PERMISSION_DENIED` the claim states. -/
theorem untrusted_peer_gets_401_not_403 :
    trustedHeaderAuthenticate [{ base := 0, maskLen := 32 }]
        "X-Helix-User-ID" "X-Helix-Role" "X-Helix-Email"
        (some 1) [("X-Helix-User-ID", ["u1"])]
      = Except.error "forbidden: untrusted source" ∧
    authHTTPOutcome (trustedHeaderAuthenticate [{ base := 0, maskLen := 32 }]
        "X-Helix-User-ID" "X-Helix-Role" "X-Helix-Email"
        (some 1) [("X-Helix-User-ID", ["u1"])])
      = (some 401, false) ∧
    (401 : ℤ) ≠ 403 ∧
    authGRPCOutcome (trustedHeaderAuthenticate [{ base := 0, maskLen := 32 }]
        "X-Helix-User-ID" "X-Helix-Role" "X-Helix-Email"
        (some 1) [("X-Helix-User-ID", ["u1"])])
      = RPCStatus.unauthenticated ∧
    RPCStatus.unauthenticated ≠ RPCStatus.permissionDenied := by
  exact ⟨rfl, rfl, by decide, rfl, by decide⟩

/-- C9 amended: a peer outside every trusted CIDR is rejected by the
strategy regardless of the identity headers presented, but the
transports surface that rejection — like every other authentication
failure — as HTTP 401 / `UNAUTHENTICATED`; the handler is not
invoked. -/
theorem untrusted_peer_rejected_as_401
    (cidrs : List CIDR) (hU hR hE : String) (ip : ℕ) (hdrs : Headers)
    (huntrusted : cidrs.any (fun c => cidrContains c ip) = false) :
    trustedHeaderAuthenticate cidrs hU hR hE (some ip) hdrs
      = Except.error "forbidden: untrusted source" ∧
    authHTTPOutcome (trustedHeaderAuthenticate cidrs hU hR hE (some ip) hdrs)
      = (some 401, false) ∧
    authGRPCOutcome (trustedHeaderAuthenticate cidrs hU hR hE (some ip) hdrs)
      = RPCStatus.unauthenticated := by
  have hauth : trustedHeaderAuthenticate cidrs hU hR hE (some ip) hdrs
      = Except.error "forbidden: untrusted source" := by
    unfold trustedHeaderAuthenticate
    simp only [huntrusted]
    rfl
  rw [hauth]
  exact ⟨rfl, rfl, rfl⟩

/-- Witness for C9 (amended): peer `1` against trusted list
`[0.0.0.0/32]`, identity header present. -/
theorem untrusted_peer_rejected_as_401_witness :
    (List.any ([{ base := 0, maskLen := 32 }] : List CIDR)
        (fun c => cidrContains c 1) = false) ∧
    authHTTPOutcome (trustedHeaderAuthenticate [{ base := 0, maskLen := 32 }]
        "X-Helix-User-ID" "X-Helix-Role" "X-Helix-Email"
        (some 1) [("X-Helix-User-ID", ["u1"]), ("X-Helix-Role", ["admin"])])
      = (some 401, false) := by
  have h := untrusted_peer_rejected_as_401 [{ base := 0, maskLen := 32 }]
    "X-Helix-User-ID" "X-Helix-Role" "X-Helix-Email" 1
    [("X-Helix-User-ID", ["u1"]), ("X-Helix-Role", ["admin"])] (by decide)
  exact ⟨by decide, h.2.1⟩

/-! ## G4: async audit writer, availability mode
    (src/audit/async_writer.go)

The channel is a queue of at most `cap` pending events; `Log` in
non-blocking mode (`blockOnFull = false`) enqueues or hands the event to
`handleDrop`.  `handleDrop` increments the drop counter and, at most
once per minute, emits a distress summary (logged at ERROR level) after
swapping the counter back to zero. -/

structure AuditState where
  buffer : List String
  dropCount : ℕ
  lastLogTime : ℤ
  deriving DecidableEq

structure DropSummary where
  droppedCount : ℕ
  sampleAction : String
  level : String
  deriving DecidableEq

inductive LogOutcome where
  | enqueued
  | droppedBufferFull
  deriving DecidableEq

/-- `AsyncLogger.handleDrop`. -/
def handleDrop (st : AuditState) (action : String) (now : ℤ) :
    AuditState × Option DropSummary :=
  let d := st.dropCount + 1
  if now - st.lastLogTime > 60 then
    ({ st with dropCount := 0, lastLogTime := now },
     some { droppedCount := d, sampleAction := action, level := "ERROR" })
  else
    ({ st with dropCount := d }, none)

/-- `AsyncLogger.Log` with `blockOnFull = false` (availability mode):
a non-blocking send that drops on a full buffer. -/
def logAvailability (cap : ℕ) (st : AuditState) (action : String) (now : ℤ) :
    AuditState × LogOutcome × Option DropSummary :=
  if st.buffer.length < cap then
    ({ st with buffer := st.buffer ++ [action] }, LogOutcome.enqueued, none)
  else
    let r := handleDrop st action now
    (r.1, LogOutcome.droppedBufferFull, r.2)

/-- C8 counterexample: the drop counter is **not** monotone — emitting a
summary swaps it back to zero (`atomic.SwapUint64(&l.dropCount, 0)`), and
the summary is logged at ERROR level, not WARN.  Concretely: buffer full
(capacity 1), five drops accumulated, next drop at `now = 100` resets the
counter from 5 to 0. -/
theorem audit_drop_counter_reset :
    (logAvailability 1 { buffer := ["a"], dropCount := 5, lastLogTime := 0 }
        "act" 100).1.dropCount = 0 ∧
    (0 : ℕ) < 5 ∧
    (logAvailability 1 { buffer := ["a"], dropCount := 5, lastLogTime := 0 }
        "act" 100).2.2
      = some { droppedCount := 6, sampleAction := "act", level := "ERROR" } ∧
    "ERROR" ≠ "WARN" := by
  exact ⟨rfl, by decide, rfl, by decide⟩

/-- C8 amended: in availability mode every enqueue attempt against a
full buffer drops the event without blocking (the buffer is unchanged
and the caller returns immediately with `ErrAuditBufferFull`) and
increments the drop counter; at most one rate-limited summary per minute
is emitted, at ERROR level, carrying the drops accumulated since the
previous summary plus a sample action — and emitting it resets the
counter to zero. -/
theorem audit_full_buffer_drop
    (cap : ℕ) (st : AuditState) (action : String) (now : ℤ)
    (hfull : cap ≤ st.buffer.length) :
    (logAvailability cap st action now).2.1 = LogOutcome.droppedBufferFull ∧
    (logAvailability cap st action now).1.buffer = st.buffer ∧
    (now - st.lastLogTime ≤ 60 →
      (logAvailability cap st action now).2.2 = none ∧
      (logAvailability cap st action now).1.dropCount = st.dropCount + 1 ∧
      (logAvailability cap st action now).1.lastLogTime = st.lastLogTime) ∧
    (now - st.lastLogTime > 60 →
      (logAvailability cap st action now).2.2
        = some { droppedCount := st.dropCount + 1, sampleAction := action,
                 level := "ERROR" } ∧
      (logAvailability cap st action now).1.dropCount = 0 ∧
      (logAvailability cap st action now).1.lastLogTime = now) := by
  have hnot : ¬ st.buffer.length < cap := by omega
  unfold logAvailability
  rw [if_neg hnot]
  unfold handleDrop
  by_cases hgt : now - st.lastLogTime > 60
  · rw [if_pos hgt]
    refine ⟨rfl, rfl, ?_, ?_⟩
    · intro hle
      omega
    · intro _
      exact ⟨rfl, rfl, rfl⟩
  · rw [if_neg hgt]
    refine ⟨rfl, rfl, ?_, ?_⟩
    · intro _
      exact ⟨rfl, rfl, rfl⟩
    · intro hgt'
      exact absurd hgt' hgt

/-- Witness for C8 (amended): capacity 2, full buffer, a drop 30 s after
the last summary is counted but not reported. -/
theorem audit_full_buffer_drop_witness :
    (2 : ℕ) ≤ (["a", "b"] : List String).length ∧
    (logAvailability 2 { buffer := ["a", "b"], dropCount := 0, lastLogTime := 0 }
        "act" 30).2.1 = LogOutcome.droppedBufferFull ∧
    (logAvailability 2 { buffer := ["a", "b"], dropCount := 0, lastLogTime := 0 }
        "act" 30).2.2 = none ∧
    (logAvailability 2 { buffer := ["a", "b"], dropCount := 0, lastLogTime := 0 }
        "act" 30).1.dropCount = 1 := by
  have h := audit_full_buffer_drop 2
    { buffer := ["a", "b"], dropCount := 0, lastLogTime := 0 } "act" 30 (by decide)
  exact ⟨by decide, h.1, (h.2.2.1 (by decide)).1, (h.2.2.1 (by decide)).2.1⟩

end HelixFnd
